import Mathlib

/-!
# Verification of the todo-for-ai MCP server's HTTP transport core

Shallow embedding, in Lean 4, of the session registry
(`HttpSessionManager`, `src/src/index.ts`), the HTTP request router
(`HttpTransport`, `src/unnamed/part_005`), the API client's retry loop
(`TodoApiClient`, `src/unnamed/part_003`) and the tool-call dispatch
(`TodoMcpServer.setupHandlers`, `src/src/index.ts`), together with proofs
and refutations of the specification's claims about them.

Timestamps are modelled as integers (milliseconds, as produced by
JavaScript `Date.getTime()`).  The JavaScript `Map<string, SessionInfo>`
is modelled as an association list with unique keys (a JS `Map` can never
hold two entries with the same key): `Map.get` returns the entry with the
key, `Map.delete` removes every entry carrying the key, and `Map.set`
replaces in place when the key is present and appends otherwise, matching
JS iteration order.
-/

set_option autoImplicit false

namespace TodoMcp

/-- `SessionInfo` from `src/src/types.ts` / `HttpSessionManager.createSession`:
`{id, createdAt, lastActivity, isActive}`. -/
structure SessionInfo where
  id : String
  createdAt : Int
  lastActivity : Int
  isActive : Bool
  deriving Repr, DecidableEq

/-- The state of `HttpSessionManager` (`src/src/index.ts`): the private
`sessions` map and the configured `sessionTimeout` (ms). -/
structure HttpSessionManager where
  sessions : List (String × SessionInfo)
  sessionTimeout : Int
  deriving Repr, DecidableEq

/-- JS `Map.get` on the sessions map. -/
def sessGet : List (String × SessionInfo) → String → Option SessionInfo
  | [], _ => none
  | e :: t, k =>
    match e.1 == k with
    | true => some e.2
    | false => sessGet t k

/-- JS `Map.set`: replace the entry in place when the key is present,
append otherwise. -/
def mapSet (l : List (String × SessionInfo)) (k : String) (v : SessionInfo) :
    List (String × SessionInfo) :=
  match sessGet l k with
  | some _ =>
    l.map (fun e =>
      match e.1 == k with
      | true => (k, v)
      | false => e)
  | none => l ++ [(k, v)]

/-- JS `Map.delete`: remove the entry carrying key `k` (keys are unique in
a JS `Map`, so this is the set of entries whose key differs from `k`). -/
def mapDelete (l : List (String × SessionInfo)) (k : String) :
    List (String × SessionInfo) :=
  l.filter (fun e => e.1 != k)

/-- `HttpSessionManager.createSession` (`src/src/index.ts:875`): inserts a
fresh session with both timestamps `now` and `isActive = true`.  The
generated `randomUUID` is passed in as `sessionId`. -/
def createSession (m : HttpSessionManager) (sessionId : String) (now : Int) :
    HttpSessionManager :=
  let info : SessionInfo :=
    { id := sessionId, createdAt := now, lastActivity := now, isActive := true }
  { m with sessions := mapSet m.sessions sessionId info }

/-- `HttpSessionManager.removeSession` (`src/src/index.ts:932`): if the
session is present, mark it inactive and delete it from the map; otherwise
do nothing. -/
def removeSession (m : HttpSessionManager) (sessionId : String) :
    HttpSessionManager :=
  match sessGet m.sessions sessionId with
  | some _ => { m with sessions := mapDelete m.sessions sessionId }
  | none => m

/-- `HttpSessionManager.getSession` (`src/src/index.ts:897`): returns the
looked-up session unless `now - lastActivity > sessionTimeout`, in which
case the entry is removed (`removeSession`) and `null` is returned; an
unknown id returns `null` with no state change.  The pair is
(returned value, state after the call). -/
def getSession (m : HttpSessionManager) (sessionId : String) (now : Int) :
    Option SessionInfo × HttpSessionManager :=
  match sessGet m.sessions sessionId with
  | none => (none, m)
  | some s =>
    if now - s.lastActivity > m.sessionTimeout then
      (none, removeSession m sessionId)
    else
      (some s, m)

/-- `HttpSessionManager.updateActivity` (`src/src/index.ts:921`): sets
`lastActivity = now` when the session exists, no-op otherwise. -/
def updateActivity (m : HttpSessionManager) (sessionId : String) (now : Int) :
    HttpSessionManager :=
  match sessGet m.sessions sessionId with
  | some s =>
    { m with sessions := mapSet m.sessions sessionId { s with lastActivity := now } }
  | none => m

/-- `HttpSessionManager.cleanupExpiredSessions` (`src/src/index.ts:945`):
removes every entry whose idle time exceeds the timeout. -/
def cleanupExpiredSessions (m : HttpSessionManager) (now : Int) :
    HttpSessionManager :=
  { m with sessions :=
      m.sessions.filter (fun e => !(now - e.2.lastActivity > m.sessionTimeout)) }

/-- `HttpSessionManager.getActiveSessions` (`src/src/index.ts:967`):
all stored sessions whose `isActive` flag is set. -/
def getActiveSessions (m : HttpSessionManager) : List SessionInfo :=
  (m.sessions.map Prod.snd).filter (fun s => s.isActive)

/-- `HttpSessionManager.destroy` (`src/src/index.ts:983`): stops the sweep
timer, marks all sessions inactive and clears the map; the surviving state
is the empty map. -/
def destroy (m : HttpSessionManager) : HttpSessionManager :=
  { m with sessions := [] }

/-! ### Association-list lemmas -/

theorem sessGet_mapDelete_self (l : List (String × SessionInfo)) (k : String) :
    sessGet (mapDelete l k) k = none := by
  induction l with
  | nil => rfl
  | cons e t ih =>
    cases hek : (e.1 == k) with
    | true =>
      have hbne : (e.1 != k) = false := by simp [bne, hek]
      simp only [mapDelete, List.filter_cons, hbne, Bool.false_eq_true,
        if_false] at ih ⊢
      exact ih
    | false =>
      have hbne : (e.1 != k) = true := by simp [bne, hek]
      simp only [mapDelete, List.filter_cons, hbne, if_true] at ih ⊢
      simp only [sessGet, hek]
      exact ih

theorem sessGet_append_single (l : List (String × SessionInfo)) (k : String)
    (v : SessionInfo) (h : sessGet l k = none) :
    sessGet (l ++ [(k, v)]) k = some v := by
  induction l with
  | nil => simp [sessGet]
  | cons e t ih =>
    cases hek : (e.1 == k) with
    | true => exact absurd h (by simp [sessGet, hek])
    | false =>
      simp only [sessGet, hek] at h
      simp only [List.cons_append, sessGet, hek]
      exact ih h

theorem sessGet_map_replace (l : List (String × SessionInfo)) (k : String)
    (v : SessionInfo) (h : (sessGet l k).isSome) :
    sessGet (l.map (fun e =>
      match e.1 == k with
      | true => (k, v)
      | false => e)) k = some v := by
  induction l with
  | nil => simp [sessGet] at h
  | cons e t ih =>
    cases hek : (e.1 == k) with
    | true =>
      simp only [List.map_cons, hek, sessGet, beq_self_eq_true]
    | false =>
      simp only [sessGet, hek] at h
      simp only [List.map_cons, hek, sessGet]
      exact ih h

theorem sessGet_mapSet_self (l : List (String × SessionInfo)) (k : String)
    (v : SessionInfo) : sessGet (mapSet l k v) k = some v := by
  unfold mapSet
  cases hl : sessGet l k with
  | some s => exact sessGet_map_replace l k v (by simp [hl])
  | none => exact sessGet_append_single l k v hl

theorem getSession_some (m : HttpSessionManager) (sessionId : String)
    (info : SessionInfo) (now : Int)
    (h : sessGet m.sessions sessionId = some info)
    (hle : now - info.lastActivity ≤ m.sessionTimeout) :
    getSession m sessionId now = (some info, m) := by
  have hng : ¬ (now - info.lastActivity > m.sessionTimeout) := by omega
  simp [getSession, h, hng]

/-! ### Claim C1: lazy-expiry semantics of `getSession` -/

/-- C1.  `getSession` returns the stored session exactly when the entry is
present and `now - lastActivity ≤ sessionTimeout`; when present but
`now - lastActivity > sessionTimeout` it removes the entry (the state loses
the key) and returns `none`; an unknown id returns `none` with the state
unchanged. -/
theorem getSession_lazy_expiry (m : HttpSessionManager) (sessionId : String)
    (now : Int) :
    (sessGet m.sessions sessionId = none →
      getSession m sessionId now = (none, m)) ∧
    (∀ info, sessGet m.sessions sessionId = some info →
      (now - info.lastActivity ≤ m.sessionTimeout →
        getSession m sessionId now = (some info, m)) ∧
      (now - info.lastActivity > m.sessionTimeout →
        getSession m sessionId now =
          (none, { m with sessions := mapDelete m.sessions sessionId }) ∧
        sessGet (getSession m sessionId now).2.sessions sessionId = none)) := by
  constructor
  · intro h
    simp [getSession, h]
  · intro info hinfo
    constructor
    · intro hle
      have : ¬ (now - info.lastActivity > m.sessionTimeout) := by omega
      simp [getSession, hinfo, this]
    · intro hgt
      have heq : getSession m sessionId now =
          (none, { m with sessions := mapDelete m.sessions sessionId }) := by
        simp [getSession, hinfo, hgt, removeSession]
      refine ⟨heq, ?_⟩
      rw [heq]
      exact sessGet_mapDelete_self m.sessions sessionId

/-- Concrete run of `getSession_lazy_expiry`: a fresh session is returned
within the timeout, an expired one is removed, an unknown id is a no-op. -/
theorem getSession_lazy_expiry_witness :
    (getSession ⟨[("a", ⟨"a", 0, 0, true⟩)], 300000⟩ "a" 100 =
      (some ⟨"a", 0, 0, true⟩, ⟨[("a", ⟨"a", 0, 0, true⟩)], 300000⟩)) ∧
    (getSession ⟨[("a", ⟨"a", 0, 0, true⟩)], 300000⟩ "a" 300001 =
      (none, ⟨[], 300000⟩)) ∧
    (getSession ⟨[("a", ⟨"a", 0, 0, true⟩)], 300000⟩ "b" 100 =
      (none, ⟨[("a", ⟨"a", 0, 0, true⟩)], 300000⟩)) := by
  refine ⟨?_, ?_, ?_⟩
  · exact ((getSession_lazy_expiry ⟨[("a", ⟨"a", 0, 0, true⟩)], 300000⟩ "a"
      100).2 ⟨"a", 0, 0, true⟩ (by decide)).1 (by decide)
  · exact (((getSession_lazy_expiry ⟨[("a", ⟨"a", 0, 0, true⟩)], 300000⟩ "a"
      300001).2 ⟨"a", 0, 0, true⟩ (by decide)).2 (by decide)).1
  · exact (getSession_lazy_expiry ⟨[("a", ⟨"a", 0, 0, true⟩)], 300000⟩ "b"
      100).1 (by decide)

/-! ### Claim C6: `removeSession` is idempotent -/

/-- C6.  Removing twice equals removing once, and removing an absent id is
a no-op (and no operation can fail: `removeSession` is total). -/
theorem removeSession_idempotent (m : HttpSessionManager) (sessionId : String) :
    removeSession (removeSession m sessionId) sessionId =
      removeSession m sessionId ∧
    (sessGet m.sessions sessionId = none → removeSession m sessionId = m) := by
  have hnone : ∀ m' : HttpSessionManager, sessGet m'.sessions sessionId = none →
      removeSession m' sessionId = m' := by
    intro m' h
    simp [removeSession, h]
  refine ⟨?_, hnone m⟩
  cases h : sessGet m.sessions sessionId with
  | none => rw [hnone m h]; exact hnone m h
  | some info =>
    have h1 : removeSession m sessionId =
        { m with sessions := mapDelete m.sessions sessionId } := by
      simp [removeSession, h]
    rw [h1]
    exact hnone _ (sessGet_mapDelete_self m.sessions sessionId)

/-- Concrete run of `removeSession_idempotent` on a one-entry registry and
on an absent id. -/
theorem removeSession_idempotent_witness :
    removeSession (removeSession ⟨[("a", ⟨"a", 0, 0, true⟩)], 300000⟩ "a") "a" =
      removeSession ⟨[("a", ⟨"a", 0, 0, true⟩)], 300000⟩ "a" ∧
    removeSession ⟨[("a", ⟨"a", 0, 0, true⟩)], 300000⟩ "b" =
      ⟨[("a", ⟨"a", 0, 0, true⟩)], 300000⟩ :=
  ⟨(removeSession_idempotent ⟨[("a", ⟨"a", 0, 0, true⟩)], 300000⟩ "a").1,
   (removeSession_idempotent ⟨[("a", ⟨"a", 0, 0, true⟩)], 300000⟩ "b").2
     (by decide)⟩

/-! ### Claim C5: sliding-window expiry -/

/-- One routed request per element of `ts`: the session is looked up
(`getSession`, which may lazily expire it) and then touched
(`updateActivity`), exactly as the continuation path of the router does.
Returns the final registry state and whether every lookup succeeded. -/
def touchRun (m : HttpSessionManager) (sessionId : String) :
    List Int → HttpSessionManager × Bool
  | [] => (m, true)
  | t :: ts =>
    let g := getSession m sessionId t
    let r := touchRun (updateActivity g.2 sessionId t) sessionId ts
    (r.1, g.1.isSome && r.2)

theorem touchRun_chain (sessionId : String) (ts : List Int) :
    ∀ (m : HttpSessionManager) (info : SessionInfo),
      sessGet m.sessions sessionId = some info →
      List.Chain (fun a b => b - a < m.sessionTimeout) info.lastActivity ts →
      (touchRun m sessionId ts).2 = true ∧
      sessGet (touchRun m sessionId ts).1.sessions sessionId =
        some { info with lastActivity := ts.getLastD info.lastActivity } ∧
      (touchRun m sessionId ts).1.sessionTimeout = m.sessionTimeout := by
  induction ts with
  | nil =>
    intro m info h _
    exact ⟨rfl, h, rfl⟩
  | cons t ts ih =>
    intro m info h hchain
    cases hchain with
    | cons hrel hchain =>
      have hng : ¬ (t - info.lastActivity > m.sessionTimeout) := by omega
      have hget : getSession m sessionId t = (some info, m) := by
        simp [getSession, h, hng]
      have hupd : updateActivity m sessionId t =
          { m with sessions :=
              mapSet m.sessions sessionId { info with lastActivity := t } } := by
        simp [updateActivity, h]
      have hstep := ih
        { m with sessions :=
            mapSet m.sessions sessionId { info with lastActivity := t } }
        { info with lastActivity := t }
        (sessGet_mapSet_self m.sessions sessionId _) hchain
      simp only [touchRun, hget, hupd, Option.isSome_some, Bool.true_and,
        List.getLastD_cons]
      exact hstep

/-- C5.  A session touched on every request, each request arriving strictly
less than `sessionTimeout` after the previous activity, stays retrievable
through arbitrarily many such requests, and is still returned by
`getSession` at any later instant within `sessionTimeout` of the last
touch (sliding window from `lastActivity`, not a fixed TTL from
`createdAt`); and `updateActivity` on an id with no entry is a no-op that
never creates an entry. -/
theorem sliding_window_expiry (m : HttpSessionManager) (sessionId : String)
    (info : SessionInfo) (ts : List Int)
    (h : sessGet m.sessions sessionId = some info)
    (hchain : List.Chain (fun a b => b - a < m.sessionTimeout)
      info.lastActivity ts) :
    (touchRun m sessionId ts).2 = true ∧
    (∀ q : Int, q - ts.getLastD info.lastActivity ≤ m.sessionTimeout →
      (getSession (touchRun m sessionId ts).1 sessionId q).1 =
        some { info with lastActivity := ts.getLastD info.lastActivity }) ∧
    (∀ (m' : HttpSessionManager) (id' : String) (t' : Int),
      sessGet m'.sessions id' = none → updateActivity m' id' t' = m') := by
  obtain ⟨hok, hfinal, htimeout⟩ := touchRun_chain sessionId ts m info h hchain
  refine ⟨hok, ?_, ?_⟩
  · intro q hq
    have hret := getSession_some (touchRun m sessionId ts).1 sessionId
      { info with lastActivity := ts.getLastD info.lastActivity } q hfinal
      (by rw [htimeout]; exact hq)
    rw [hret]
  · intro m' id' t' h'
    simp [updateActivity, h']

/-- Concrete run of `sliding_window_expiry`: three touches 200 s apart with
a 300 s timeout (a fixed TTL from `createdAt` would have expired before the
second touch), then a successful `getSession` 200 s after the last one. -/
theorem sliding_window_expiry_witness :
    (touchRun ⟨[("s", ⟨"s", 0, 0, true⟩)], 300000⟩ "s"
      [200000, 400000, 600000]).2 = true ∧
    (getSession (touchRun ⟨[("s", ⟨"s", 0, 0, true⟩)], 300000⟩ "s"
      [200000, 400000, 600000]).1 "s" 800000).1 =
      some ⟨"s", 0, 600000, true⟩ := by
  have hs := sliding_window_expiry ⟨[("s", ⟨"s", 0, 0, true⟩)], 300000⟩ "s"
    ⟨"s", 0, 0, true⟩ [200000, 400000, 600000] (by decide)
    (List.Chain.cons (by decide) (List.Chain.cons (by decide)
      (List.Chain.cons (by decide) List.Chain.nil)))
  exact ⟨hs.1, hs.2.1 800000 (by decide)⟩

/-! ### Claim C9: the stored-sessions invariant -/

/-- Registry states reachable through the public `HttpSessionManager`
operations, starting from the freshly constructed empty map. -/
inductive ReachableManager : HttpSessionManager → Prop
  | init (timeout : Int) : ReachableManager ⟨[], timeout⟩
  | create {m : HttpSessionManager} (sessionId : String) (now : Int) :
      ReachableManager m → ReachableManager (createSession m sessionId now)
  | getS {m : HttpSessionManager} (sessionId : String) (now : Int) :
      ReachableManager m → ReachableManager (getSession m sessionId now).2
  | touch {m : HttpSessionManager} (sessionId : String) (now : Int) :
      ReachableManager m → ReachableManager (updateActivity m sessionId now)
  | remove {m : HttpSessionManager} (sessionId : String) :
      ReachableManager m → ReachableManager (removeSession m sessionId)
  | sweep {m : HttpSessionManager} (now : Int) :
      ReachableManager m → ReachableManager (cleanupExpiredSessions m now)
  | teardown {m : HttpSessionManager} :
      ReachableManager m → ReachableManager (destroy m)

theorem mem_mapSet {l : List (String × SessionInfo)} {k : String}
    {v : SessionInfo} {e : String × SessionInfo} (h : e ∈ mapSet l k v) :
    e ∈ l ∨ e = (k, v) := by
  unfold mapSet at h
  cases hl : sessGet l k with
  | some s =>
    rw [hl] at h
    obtain ⟨a, ha, hfa⟩ := List.mem_map.mp h
    cases hak : (a.1 == k) with
    | true => rw [hak] at hfa; exact Or.inr hfa.symm
    | false => rw [hak] at hfa; exact Or.inl (hfa ▸ ha)
  | none =>
    rw [hl] at h
    rcases List.mem_append.mp h with h' | h'
    · exact Or.inl h'
    · exact Or.inr (List.mem_singleton.mp h')

theorem sessGet_mem {l : List (String × SessionInfo)} {k : String}
    {v : SessionInfo} (h : sessGet l k = some v) : (k, v) ∈ l := by
  induction l with
  | nil => exact absurd h (by simp [sessGet])
  | cons e t ih =>
    cases hek : (e.1 == k) with
    | true =>
      simp only [sessGet, hek] at h
      have h1 : e.1 = k := eq_of_beq hek
      have h2 : e.2 = v := Option.some.inj h
      have he : ((k, v) : String × SessionInfo) = e := by rw [← h1, ← h2]
      rw [he]
      exact List.mem_cons_self e t
    | false =>
      simp only [sessGet, hek] at h
      exact List.mem_cons_of_mem e (ih h)

/-- Every stored entry is marked active. -/
def allStoredActive (m : HttpSessionManager) : Prop :=
  ∀ e ∈ m.sessions, e.2.isActive = true

theorem allStoredActive_createSession {m : HttpSessionManager}
    (h : allStoredActive m) (sessionId : String) (now : Int) :
    allStoredActive (createSession m sessionId now) := by
  intro e he
  rcases mem_mapSet he with h' | h'
  · exact h e h'
  · rw [h']

theorem allStoredActive_removeSession {m : HttpSessionManager}
    (h : allStoredActive m) (sessionId : String) :
    allStoredActive (removeSession m sessionId) := by
  unfold removeSession
  cases sessGet m.sessions sessionId with
  | some s => exact fun e he => h e (List.mem_of_mem_filter he)
  | none => exact h

theorem allStoredActive_getSession {m : HttpSessionManager}
    (h : allStoredActive m) (sessionId : String) (now : Int) :
    allStoredActive (getSession m sessionId now).2 := by
  unfold getSession
  cases sessGet m.sessions sessionId with
  | none => exact h
  | some s =>
    dsimp only
    split
    · exact allStoredActive_removeSession h sessionId
    · exact h

theorem allStoredActive_updateActivity {m : HttpSessionManager}
    (h : allStoredActive m) (sessionId : String) (now : Int) :
    allStoredActive (updateActivity m sessionId now) := by
  unfold updateActivity
  cases hg : sessGet m.sessions sessionId with
  | none => exact h
  | some s =>
    intro e he
    rcases mem_mapSet he with h' | h'
    · exact h e h'
    · rw [h']
      exact h (sessionId, s) (sessGet_mem hg)

theorem reachable_all_active {m : HttpSessionManager}
    (h : ReachableManager m) : allStoredActive m := by
  induction h with
  | init timeout => intro e he; exact absurd he (List.not_mem_nil e)
  | create sessionId now _ ih => exact allStoredActive_createSession ih sessionId now
  | getS sessionId now _ ih => exact allStoredActive_getSession ih sessionId now
  | touch sessionId now _ ih => exact allStoredActive_updateActivity ih sessionId now
  | remove sessionId _ ih => exact allStoredActive_removeSession ih sessionId
  | sweep now _ ih => exact fun e he => ih e (List.mem_of_mem_filter he)
  | teardown _ ih => intro e he; exact absurd he (List.not_mem_nil e)

theorem getActiveSessions_of_allActive {m : HttpSessionManager}
    (h : allStoredActive m) :
    getActiveSessions m = m.sessions.map Prod.snd := by
  unfold getActiveSessions
  refine List.filter_eq_self.mpr ?_
  intro s hs
  obtain ⟨e, he, hes⟩ := List.mem_map.mp hs
  rw [← hes]
  exact h e he

/-- C9.  In every reachable registry state, every entry of the internal
sessions map has `isActive = true` (`isActive` is only ever set to `false`
at the instant the entry is deleted), so `getActiveSessions` returns
exactly all stored entries — including entries whose idle time already
exceeds the timeout but which no sweep or lazy `getSession` has removed
yet. -/
theorem stored_sessions_all_active (m : HttpSessionManager)
    (h : ReachableManager m) :
    (∀ e ∈ m.sessions, e.2.isActive = true) ∧
    getActiveSessions m = m.sessions.map Prod.snd := by
  have ha := reachable_all_active h
  exact ⟨ha, getActiveSessions_of_allActive ha⟩

/-- Concrete run of `stored_sessions_all_active` on the state reached by
creating one session at time 0: even at instants far past its expiry the
stored entry is still flagged active and still listed. -/
theorem stored_sessions_all_active_witness :
    (∀ e ∈ (createSession ⟨[], 300000⟩ "s" 0).sessions, e.2.isActive = true) ∧
    getActiveSessions (createSession ⟨[], 300000⟩ "s" 0) =
      (createSession ⟨[], 300000⟩ "s" 0).sessions.map Prod.snd :=
  stored_sessions_all_active _
    (ReachableManager.create "s" 0 (ReachableManager.init 300000))

/-! ### Claim C4: the `GET /health` endpoint -/

/-- Body of the `/health` response (`src/unnamed/part_005:264`). -/
structure HealthBody where
  status : String
  transport : String
  activeSessions : Nat
  timestamp : Int
  deriving Repr, DecidableEq

/-- The `GET /health` route handler (`src/unnamed/part_005:264`):
`res.json({status: 'healthy', transport: 'http', activeSessions:
this.sessionManager?.getActiveSessions().length || 0, timestamp})` with the
implicit express status 200.  Result is (HTTP status, body). -/
def healthHandler (sessionManager : Option HttpSessionManager) (now : Int) :
    Nat × HealthBody :=
  (200,
   { status := "healthy"
     transport := "http"
     activeSessions :=
       match sessionManager with
       | some mgr => (getActiveSessions mgr).length
       | none => 0
     timestamp := now })

/-- The count the claim asks for, taken from the spec's words: the number
of currently-live (non-expired) sessions at the moment of the request. -/
def liveSessionCount (m : HttpSessionManager) (now : Int) : Nat :=
  ((m.sessions.map Prod.snd).filter
    (fun s => decide (now - s.lastActivity ≤ m.sessionTimeout))).length

/-- C4 is false as stated: with one stored session idle for 400 s against
a 300 s timeout (expired but neither swept nor lazily removed), `/health`
reports `activeSessions = 1` while the number of currently-live
(non-expired) sessions is 0. -/
theorem health_live_count_counterexample :
    (healthHandler (some ⟨[("e", ⟨"e", 0, 0, true⟩)], 300000⟩) 400000).2.activeSessions
        = 1 ∧
    liveSessionCount ⟨[("e", ⟨"e", 0, 0, true⟩)], 300000⟩ 400000 = 0 ∧
    (healthHandler (some ⟨[("e", ⟨"e", 0, 0, true⟩)], 300000⟩) 400000).2.activeSessions
        ≠ liveSessionCount ⟨[("e", ⟨"e", 0, 0, true⟩)], 300000⟩ 400000 := by
  refine ⟨rfl, by decide, by decide⟩

/-- C4 amended.  `GET /health` always returns HTTP 200 with body
`{status: "healthy", transport: "http", activeSessions, timestamp}`, where
`activeSessions` is the (non-negative) number of sessions currently stored
in the registry — in every reachable state this equals the total number of
stored entries, which may include sessions already idle past the timeout
that no sweep or lazy lookup has removed yet, so it can exceed the number
of currently-live (non-expired) sessions. -/
theorem health_endpoint_amended (sessionManager : Option HttpSessionManager)
    (now : Int) :
    (healthHandler sessionManager now).1 = 200 ∧
    (healthHandler sessionManager now).2.status = "healthy" ∧
    (healthHandler sessionManager now).2.transport = "http" ∧
    (healthHandler sessionManager now).2.timestamp = now ∧
    (∀ m, sessionManager = some m →
      (healthHandler sessionManager now).2.activeSessions =
        (getActiveSessions m).length ∧
      (ReachableManager m →
        (healthHandler sessionManager now).2.activeSessions =
          m.sessions.length)) ∧
    (sessionManager = none →
      (healthHandler sessionManager now).2.activeSessions = 0) := by
  refine ⟨rfl, rfl, rfl, rfl, ?_, ?_⟩
  · intro m hm
    subst hm
    refine ⟨rfl, ?_⟩
    intro hreach
    show (getActiveSessions m).length = m.sessions.length
    rw [getActiveSessions_of_allActive (reachable_all_active hreach),
      List.length_map]
  · intro hm
    subst hm
    rfl

/-- Concrete run of `health_endpoint_amended` in the reachable state with
one session created at time 0, probed at time 400 s: the response is 200
and `activeSessions` counts the stored (here already idle-expired)
entry. -/
theorem health_endpoint_amended_witness :
    (healthHandler (some (createSession ⟨[], 300000⟩ "s" 0)) 400000).1 = 200 ∧
    (healthHandler (some (createSession ⟨[], 300000⟩ "s" 0)) 400000).2.activeSessions
      = (createSession ⟨[], 300000⟩ "s" 0).sessions.length := by
  have h := health_endpoint_amended (some (createSession ⟨[], 300000⟩ "s" 0))
    400000
  exact ⟨h.1, (h.2.2.2.2.1 _ rfl).2
    (ReachableManager.create "s" 0 (ReachableManager.init 300000))⟩

/-! ### The HTTP transport: origin gate and `/mcp` routing
(`src/unnamed/part_005`) -/

/-- `HttpTransportConfig` (`src/src/types.ts:170`). -/
structure HttpTransportConfig where
  port : Nat
  host : String
  sessionTimeout : Int
  enableDnsRebindingProtection : Bool
  allowedOrigins : List String
  maxConnections : Nat
  deriving Repr, DecidableEq

/-- Token of the JS regex built by
`allowedOrigin.replace(/\*/g, '.*')`: a `*` in the allow-list entry
becomes `.*` (any substring), a `.` is left unescaped and so matches any
single character, every other character matches itself literally. -/
inductive PatTok where
  | lit (c : Char)
  | dot
  | star
  deriving Repr, DecidableEq

/-- Compile an allow-list entry to the token list of
`new RegExp('^' + allowedOrigin.replace(/\*/g, '.*') + '$')`. -/
def compilePattern (allowedOrigin : String) : List PatTok :=
  allowedOrigin.data.map (fun c =>
    if c == '*' then PatTok.star
    else if c == '.' then PatTok.dot
    else PatTok.lit c)

/-- Anchored regex matching, fuelled so that the recursion is structural
(every recursive call strictly shrinks `p.length + s.length`, so
`p.length + s.length + 1` units of fuel always suffice and the `0` case is
unreachable). -/
def matchPatFuel : Nat → List PatTok → List Char → Bool
  | 0, _, _ => false
  | _ + 1, [], [] => true
  | _ + 1, [], _ :: _ => false
  | _ + 1, PatTok.lit _ :: _, [] => false
  | fuel + 1, PatTok.lit c :: p, d :: s => c == d && matchPatFuel fuel p s
  | _ + 1, PatTok.dot :: _, [] => false
  | fuel + 1, PatTok.dot :: p, _ :: s => matchPatFuel fuel p s
  | fuel + 1, PatTok.star :: p, [] => matchPatFuel fuel p []
  | fuel + 1, PatTok.star :: p, d :: s =>
    matchPatFuel fuel p (d :: s) || matchPatFuel fuel (PatTok.star :: p) s

/-- `regex.test(origin)` for the compiled, `^`/`$`-anchored pattern. -/
def matchPat (p : List PatTok) (s : List Char) : Bool :=
  matchPatFuel (p.length + s.length + 1) p s

/-- The allow-list check of `corsOptions.origin`
(`src/unnamed/part_005:166`): `this.config.allowedOrigins.some(...)`,
wildcard entries (`allowedOrigin.includes('*')`) matched through the
compiled regex, the rest by exact string equality. -/
def originAllowed (allowedOrigins : List String) (origin : String) : Bool :=
  allowedOrigins.any (fun allowedOrigin =>
    if allowedOrigin.data.contains '*' then
      matchPat (compilePattern allowedOrigin) origin.data
    else
      allowedOrigin == origin)

/-- `corsOptions.origin` (`src/unnamed/part_005:161`): a request with no
`Origin` header is admitted unconditionally (`if (!origin) return
callback(null, true)`); otherwise the allow-list decides.  The
DNS-rebinding-protection flag plays no part here. -/
def corsGate (config : HttpTransportConfig) (origin : Option String) : Bool :=
  match origin with
  | none => true
  | some o => originAllowed config.allowedOrigins o

/-- HTTP method of an inbound `/mcp` request. -/
inductive HttpMethod where
  | post
  | get
  | delete
  deriving Repr, DecidableEq

/-- An inbound `/mcp` request as `handleMcpRequest` sees it: the
`Mcp-Session-Id` header, whether `isInitializeRequest(req.body)` holds,
and the `Origin` header (consumed earlier by the CORS middleware). -/
structure McpRequest where
  method : HttpMethod
  sessionId : Option String
  isInit : Bool
  origin : Option String
  deriving Repr, DecidableEq

/-- Mutable state of `HttpTransport`: the ids with a live
`StreamableHTTPServerTransport` in the `transports` map, and the session
manager. -/
structure TransportState where
  transports : List String
  sessionManager : HttpSessionManager
  deriving Repr, DecidableEq

/-- Outcome of `handleMcpRequest` for one request. -/
inductive McpOutcome where
  /-- An existing transport was reused and the message was delivered. -/
  | routed (sessionId : String)
  /-- A new session/transport pair was created for an initialize request. -/
  | initialized (newSessionId : String)
  /-- `res.status(status).json({jsonrpc, error: {code, ...}, id: null})`. -/
  | rejected (status : Nat) (code : Int) (idIsNull : Bool)
  deriving Repr, DecidableEq

/-- `HttpTransport.handleMcpRequest` (`src/unnamed/part_005:320`), the
routing decision: (1) a session id with a live transport is reused and the
session touched; (2) no session id on a POST initialize request creates a
session (id generated by `sessionManager.createSession`, the transport
registered by `onsessioninitialized`); (3) anything else is answered
`400` with `{code: -32000, id: null}` and no state change. -/
def handleMcpRequest (st : TransportState) (req : McpRequest)
    (newSessionId : String) (now : Int) : McpOutcome × TransportState :=
  match req.sessionId with
  | some sid =>
    if st.transports.contains sid then
      (McpOutcome.routed sid,
       { st with sessionManager := updateActivity st.sessionManager sid now })
    else
      (McpOutcome.rejected 400 (-32000) true, st)
  | none =>
    if req.method == HttpMethod.post && req.isInit then
      (McpOutcome.initialized newSessionId,
       { st with
          transports := st.transports ++ [newSessionId]
          sessionManager := createSession st.sessionManager newSessionId now })
    else
      (McpOutcome.rejected 400 (-32000) true, st)

/-- Outcome of the whole express pipeline for a `/mcp` request. -/
inductive HttpOutcome where
  /-- The CORS middleware called `callback(new Error('Not allowed by
  CORS'))`; the route handler never runs. -/
  | corsRejected
  | mcp (o : McpOutcome)
  deriving Repr, DecidableEq

/-- The middleware pipeline of `setupMiddleware`/`setupRoutes`: the CORS
gate runs before any session logic; only an admitted request reaches
`handleMcpRequest`. -/
def serveRequest (config : HttpTransportConfig) (st : TransportState)
    (req : McpRequest) (newSessionId : String) (now : Int) :
    HttpOutcome × TransportState :=
  if corsGate config req.origin then
    let r := handleMcpRequest st req newSessionId now
    (HttpOutcome.mcp r.1, r.2)
  else
    (HttpOutcome.corsRejected, st)

theorem originAllowed_iff (allowedOrigins : List String) (o : String) :
    originAllowed allowedOrigins o = true ↔
      ∃ a ∈ allowedOrigins,
        (a.data.contains '*' = false ∧ a = o) ∨
        (a.data.contains '*' = true ∧ matchPat (compilePattern a) o.data = true) := by
  unfold originAllowed
  rw [List.any_eq_true]
  constructor
  · rintro ⟨a, ha, hp⟩
    refine ⟨a, ha, ?_⟩
    cases hc : a.data.contains '*' with
    | true =>
      right
      simp only [hc, if_true] at hp
      exact ⟨rfl, hp⟩
    | false =>
      left
      simp only [hc, Bool.false_eq_true, if_false] at hp
      exact ⟨rfl, eq_of_beq hp⟩
  · rintro ⟨a, ha, h | h⟩
    · obtain ⟨hc, hao⟩ := h
      subst hao
      exact ⟨a, ha, by rw [hc]; simp⟩
    · obtain ⟨hc, hm⟩ := h
      exact ⟨a, ha, by rw [hc]; simp [hm]⟩

/-! ### Claim C7: the origin gate -/

/-- C7.  The gate admits a declared `Origin` exactly when it matches an
allow-list entry (exact equality for plain entries, compiled-wildcard
match for entries containing `*`); a gate-rejected request produces
`corsRejected` with the transport state untouched (no session logic, no
tool invocation); an admitted one proceeds to `handleMcpRequest`.
Concretely, `http://localhost:*` admits `http://localhost:5173` and
rejects `http://evil.com`. -/
theorem origin_gate (config : HttpTransportConfig) (st : TransportState)
    (req : McpRequest) (newSessionId : String) (now : Int) (o : String)
    (horigin : req.origin = some o) :
    (originAllowed config.allowedOrigins o = true ↔
      ∃ a ∈ config.allowedOrigins,
        (a.data.contains '*' = false ∧ a = o) ∨
        (a.data.contains '*' = true ∧
          matchPat (compilePattern a) o.data = true)) ∧
    (originAllowed config.allowedOrigins o = false →
      serveRequest config st req newSessionId now =
        (HttpOutcome.corsRejected, st)) ∧
    (originAllowed config.allowedOrigins o = true →
      serveRequest config st req newSessionId now =
        (HttpOutcome.mcp (handleMcpRequest st req newSessionId now).1,
         (handleMcpRequest st req newSessionId now).2)) ∧
    originAllowed ["http://localhost:*"] "http://localhost:5173" = true ∧
    originAllowed ["http://localhost:*"] "http://evil.com" = false := by
  refine ⟨originAllowed_iff _ _, ?_, ?_, by decide, by decide⟩
  · intro hf
    simp [serveRequest, corsGate, horigin, hf]
  · intro ht
    simp [serveRequest, corsGate, horigin, ht]

/-- Concrete run of `origin_gate`: with allow-list
`["http://localhost:*"]`, a request from `http://evil.com` is rejected by
the gate with the state untouched, while `http://localhost:5173` is
admitted. -/
theorem origin_gate_witness :
    serveRequest ⟨3000, "localhost", 300000, false, ["http://localhost:*"], 100⟩
      ⟨[], ⟨[], 300000⟩⟩
      ⟨HttpMethod.post, none, true, some "http://evil.com"⟩ "n" 0 =
      (HttpOutcome.corsRejected, ⟨[], ⟨[], 300000⟩⟩) ∧
    originAllowed ["http://localhost:*"] "http://localhost:5173" = true := by
  have h := origin_gate
    ⟨3000, "localhost", 300000, false, ["http://localhost:*"], 100⟩
    ⟨[], ⟨[], 300000⟩⟩
    ⟨HttpMethod.post, none, true, some "http://evil.com"⟩ "n" 0
    "http://evil.com" rfl
  exact ⟨h.2.1 h.2.2.2.2, h.2.2.2.1⟩

/-! ### Claim C10: requests without an `Origin` header bypass the gate -/

/-- C10.  A request with no `Origin` header is admitted by the gate
unconditionally — for every configured allow-list and independently of the
DNS-rebinding-protection flag (which `corsOptions.origin` never reads) —
and proceeds to `handleMcpRequest`. -/
theorem no_origin_header_admitted (config other : HttpTransportConfig)
    (st : TransportState) (req : McpRequest) (newSessionId : String)
    (now : Int) (horigin : req.origin = none) :
    corsGate config req.origin = true ∧
    corsGate config req.origin = corsGate other req.origin ∧
    serveRequest config st req newSessionId now =
      (HttpOutcome.mcp (handleMcpRequest st req newSessionId now).1,
       (handleMcpRequest st req newSessionId now).2) := by
  refine ⟨by simp [corsGate, horigin], by simp [corsGate, horigin], ?_⟩
  simp [serveRequest, corsGate, horigin]

/-- Concrete run of `no_origin_header_admitted`: with an empty allow-list
and DNS-rebinding protection enabled, an origin-less initialize request is
still admitted and creates a session. -/
theorem no_origin_header_admitted_witness :
    corsGate ⟨3000, "localhost", 300000, true, [], 100⟩ none = true ∧
    (serveRequest ⟨3000, "localhost", 300000, true, [], 100⟩
      ⟨[], ⟨[], 300000⟩⟩ ⟨HttpMethod.post, none, true, none⟩ "n" 0).1 =
      HttpOutcome.mcp (McpOutcome.initialized "n") := by
  have h := no_origin_header_admitted ⟨3000, "localhost", 300000, true, [], 100⟩
    ⟨3000, "localhost", 300000, false, ["http://localhost:*"], 100⟩
    ⟨[], ⟨[], 300000⟩⟩ ⟨HttpMethod.post, none, true, none⟩ "n" 0 rfl
  refine ⟨h.1, ?_⟩
  rw [h.2.2]
  rfl

/-! ### Claim C2: rejection of invalid `/mcp` requests -/

/-- C2 is false as stated for its "expired" case: at time 1 000 000 ms a
session whose `lastActivity` is 0 against a 300 000 ms timeout is expired,
yet because its transport is still registered the request is routed (and
even refreshes the session's activity) instead of being rejected. -/
theorem expired_session_routed_counterexample :
    ((1000000 : Int) - 0 > (300000 : Int)) ∧
    (handleMcpRequest ⟨["s"], ⟨[("s", ⟨"s", 0, 0, true⟩)], 300000⟩⟩
      ⟨HttpMethod.post, some "s", false, none⟩ "n" 1000000).1 =
      McpOutcome.routed "s" ∧
    (handleMcpRequest ⟨["s"], ⟨[("s", ⟨"s", 0, 0, true⟩)], 300000⟩⟩
      ⟨HttpMethod.post, some "s", false, none⟩ "n" 1000000).2 ≠
      ⟨["s"], ⟨[("s", ⟨"s", 0, 0, true⟩)], 300000⟩⟩ :=
  ⟨by decide, by decide, by decide⟩

/-- C2 amended.  A request whose session id has no live transport, or with
no session id on a non-initialize (or non-POST) message, is answered with
the structured JSON-RPC error (HTTP 400, `error.code = -32000`,
`id: null`) and neither creates a session nor mutates any state; but a
request whose session id still has a registered transport is routed — the
router never consults expiry, so "present but expired" ids with a live
transport are served, not rejected. -/
theorem mcp_rejection_amended (st : TransportState) (req : McpRequest)
    (newSessionId : String) (now : Int) :
    (∀ sid, req.sessionId = some sid → sid ∉ st.transports →
      handleMcpRequest st req newSessionId now =
        (McpOutcome.rejected 400 (-32000) true, st)) ∧
    (req.sessionId = none →
      (req.method == HttpMethod.post && req.isInit) = false →
      handleMcpRequest st req newSessionId now =
        (McpOutcome.rejected 400 (-32000) true, st)) ∧
    (∀ sid, req.sessionId = some sid → sid ∈ st.transports →
      (handleMcpRequest st req newSessionId now).1 = McpOutcome.routed sid) := by
  refine ⟨?_, ?_, ?_⟩
  · intro sid hs hc
    simp [handleMcpRequest, hs, hc]
  · intro hs hc
    simp [handleMcpRequest, hs, hc]
  · intro sid hs hc
    simp [handleMcpRequest, hs, hc]

/-- Concrete run of `mcp_rejection_amended`: an unknown session id and an
id-less `tools/list`-style POST are both answered with status 400, code
-32000, and the state unchanged. -/
theorem mcp_rejection_amended_witness :
    handleMcpRequest ⟨[], ⟨[], 300000⟩⟩
      ⟨HttpMethod.post, some "x", true, none⟩ "n" 0 =
      (McpOutcome.rejected 400 (-32000) true, ⟨[], ⟨[], 300000⟩⟩) ∧
    handleMcpRequest ⟨[], ⟨[], 300000⟩⟩
      ⟨HttpMethod.post, none, false, none⟩ "n" 0 =
      (McpOutcome.rejected 400 (-32000) true, ⟨[], ⟨[], 300000⟩⟩) :=
  ⟨(mcp_rejection_amended ⟨[], ⟨[], 300000⟩⟩
      ⟨HttpMethod.post, some "x", true, none⟩ "n" 0).1 "x" rfl (by decide),
   (mcp_rejection_amended ⟨[], ⟨[], 300000⟩⟩
      ⟨HttpMethod.post, none, false, none⟩ "n" 0).2.1 rfl (by decide)⟩

/-! ### The API client's retry loop (`TodoApiClient`, `src/unnamed/part_003`) -/

/-- JS `s.includes(sub)` on the character lists of the strings. -/
def strIncludesAux (sub : List Char) : List Char → Bool
  | [] => sub.isEmpty
  | c :: t => sub.isPrefixOf (c :: t) || strIncludesAux sub t

/-- JS `s.includes(sub)`. -/
def strIncludes (s sub : String) : Bool :=
  strIncludesAux sub.data s.data

/-- An axios rejection: `error.response` present (the client's
`validateStatus: status < 500` makes axios reject exactly the `>= 500`
responses) or a pure network failure (`error.request` only). -/
inductive AxiosFailure where
  | response (status : Nat) (statusText : String)
      (errorMessage : Option String) (dataString : Option String)
  | network
  deriving Repr, DecidableEq

/-- The plain `Error` objects flowing through `executeWithRetry`: a
message, plus the `response` field that only raw `AxiosError`s carry
(`shouldRetry` reads it through a cast). -/
structure ErrObj where
  message : String
  response : Option AxiosFailure
  deriving Repr, DecidableEq

/-- `TodoApiClient.handleApiError` (`src/unnamed/part_003:244`): normalizes
an axios failure into a plain `Error` — `API Error: <msg>` when the body
carries a structured `{error: {message}}`, else `HTTP <status>:
<statusText>`, else `Network Error: Unable to connect to <base>`.  The
result is a plain `Error`, so its `response` field is absent. -/
def handleApiError (apiBaseUrl : String) : AxiosFailure → ErrObj
  | AxiosFailure.response status statusText errorMessage _ =>
    { message :=
        match errorMessage with
        | some msg => "API Error: " ++ msg
        | none => "HTTP " ++ toString status ++ ": " ++ statusText
      response := none }
  | AxiosFailure.network =>
    { message := "Network Error: Unable to connect to " ++ apiBaseUrl
      response := none }

/-- What one invocation of the retried `operation()` does: resolve, reject
through the axios error path (already normalized by the response
interceptor's `Promise.reject(this.handleApiError(error))`), or throw a
plain `Error` from the operation body itself. -/
inductive AttemptOutcome (T : Type) where
  | ok (v : T)
  | axiosFail (f : AxiosFailure)
  | thrown (message : String)
  deriving Repr, DecidableEq

/-- `await operation()` as `executeWithRetry` observes it. -/
def attemptResult {T : Type} (apiBaseUrl : String) :
    AttemptOutcome T → Except ErrObj T
  | AttemptOutcome.ok v => Except.ok v
  | AttemptOutcome.axiosFail f => Except.error (handleApiError apiBaseUrl f)
  | AttemptOutcome.thrown msg => Except.error { message := msg, response := none }

/-- The client's `RetryConfig` (`src/unnamed/part_003:31`). -/
structure RetryConfig where
  maxRetries : Nat
  retryDelay : Nat
  retryDelayMultiplier : Nat
  deriving Repr, DecidableEq

/-- The values set in the constructor (`src/unnamed/part_003:45`). -/
def defaultRetryConfig : RetryConfig :=
  { maxRetries := 5, retryDelay := 2000, retryDelayMultiplier := 2 }

/-- `TodoApiClient.shouldRetry` (`src/unnamed/part_003:262`): no more
retries at `attempt >= maxRetries`; retry on missing response (network
error), on 5xx, on 429, and on 400s whose message or string body looks
like a Cloudflare security / rate-limit response. -/
def shouldRetry (rc : RetryConfig) (e : ErrObj) (attempt : Nat) : Bool :=
  if attempt ≥ rc.maxRetries then
    false
  else
    match e.response with
    | none => true
    | some AxiosFailure.network => true
    | some (AxiosFailure.response status _ _ dataString) =>
      if 500 ≤ status ∧ status < 600 then true
      else if status = 429 then true
      else if status = 400 then
        strIncludes e.message "HTTPS port" ||
        strIncludes e.message "rate limit" ||
        (match dataString with
         | some d => strIncludes d "cloudflare" || strIncludes d "security"
         | none => false)
      else false

/-- The `for (attempt = 0; attempt <= maxRetries; ...)` loop body of
`TodoApiClient.executeWithRetry` (`src/unnamed/part_003:314`): on success
return; on a caught error retry (after sleeping
`retryDelay * multiplier ^ attempt`) only when the error's message
contains the literal text `AxiosError` AND `shouldRetry` agrees; otherwise
rethrow; when the loop bound is exhausted, throw the last error.  `fuel`
is the number of loop iterations remaining; results pair the outcome with
the list of slept delays. -/
def executeWithRetryGo {T : Type} (rc : RetryConfig) (apiBaseUrl : String)
    (attempts : Nat → AttemptOutcome T) :
    Nat → Nat → Option ErrObj → Except ErrObj T × List Nat
  | 0, _, lastError =>
    (Except.error (lastError.getD { message := "", response := none }), [])
  | fuel + 1, attempt, _ =>
    match attemptResult apiBaseUrl (attempts attempt) with
    | Except.ok v => (Except.ok v, [])
    | Except.error e =>
      if strIncludes e.message "AxiosError" && shouldRetry rc e attempt then
        let d := rc.retryDelay * rc.retryDelayMultiplier ^ attempt
        let r := executeWithRetryGo rc apiBaseUrl attempts fuel (attempt + 1)
          (some e)
        (r.1, d :: r.2)
      else
        (Except.error e, [])

/-- `TodoApiClient.executeWithRetry`: run the loop from attempt 0 with
`maxRetries + 1` iterations available. -/
def executeWithRetry {T : Type} (rc : RetryConfig) (apiBaseUrl : String)
    (attempts : Nat → AttemptOutcome T) : Except ErrObj T × List Nat :=
  executeWithRetryGo rc apiBaseUrl attempts (rc.maxRetries + 1) 0 none

/-! ### Claim C3: the retry policy -/

/-- C3's scenario refutes the claim on this code: with the default retry
configuration and an operation that yields HTTP 500 on attempts 0, 1, 2
and success on attempt 3, the caller receives the error of the FIRST
attempt with no sleeps at all — the retry branch fires only when the
caught error's message contains the literal text `AxiosError`, and the
client's own normalization (`handleApiError`) produces messages
(`HTTP 500: ...`, `API Error: ...`, `Network Error: ...`) that never
contain it, even though `shouldRetry` itself classifies a 500 (and a
network failure) as retryable. -/
theorem retry_guard_dead_code_bug :
    executeWithRetry defaultRetryConfig "https://todo4ai.org/api"
      (fun attempt =>
        if attempt < 3 then
          AttemptOutcome.axiosFail
            (AxiosFailure.response 500 "Internal Server Error" none none)
        else
          AttemptOutcome.ok 42) =
      (Except.error { message := "HTTP 500: Internal Server Error",
                      response := none }, []) ∧
    shouldRetry defaultRetryConfig
      { message := "HTTP 500: Internal Server Error",
        response := some (AxiosFailure.response 500 "Internal Server Error"
          none none) } 0 = true ∧
    shouldRetry defaultRetryConfig
      { message := "HTTP 500: Internal Server Error", response := none }
      0 = true ∧
    strIncludes "HTTP 500: Internal Server Error" "AxiosError" = false := by
  refine ⟨by rfl, by decide, by decide, by decide⟩

/-! ### The tool-call dispatch (`TodoMcpServer.setupHandlers`,
`src/src/index.ts:399`) -/

/-- Coarse shape of a JSON argument value, as `validateArgs` sees it
(`undefined`/`null` both make a required field count as missing). -/
inductive ArgVal where
  | str (s : String)
  | num (n : Int)
  | boolean (b : Bool)
  | arr (len : Nat)
  | nullv
  deriving Repr, DecidableEq

/-- A JSON object of tool arguments; `none` models a non-object `args`. -/
abbrev ArgMap := List (String × ArgVal)

/-- JS property access `args[field]` on an argument object. -/
def argGet : ArgMap → String → Option ArgVal
  | [], _ => none
  | e :: t, k =>
    match e.1 == k with
    | true => some e.2
    | false => argGet t k

/-- Result of the `CallTool` switch: either a handler runs — and every
handler immediately calls the corresponding `this.apiClient.<method>(args)`
with the arguments exactly as received — or the `default` case throws
`Unknown tool: <name>`. -/
inductive DispatchResult where
  | invoke (tool : String) (args : Option ArgMap)
  | unknownTool (message : String)
  deriving Repr

/-- The `switch (name)` of `TodoMcpServer.setupHandlers`
(`src/src/index.ts:399`): six named cases, each delegating to a handler
that forwards `args` unchanged to the API client; anything else throws. -/
def callToolDispatch (name : String) (args : Option ArgMap) : DispatchResult :=
  if name == "get_project_tasks_by_name" then DispatchResult.invoke name args
  else if name == "get_task_by_id" then DispatchResult.invoke name args
  else if name == "submit_task_feedback" then DispatchResult.invoke name args
  else if name == "create_task" then DispatchResult.invoke name args
  else if name == "get_project_info" then DispatchResult.invoke name args
  else if name == "list_user_projects" then DispatchResult.invoke name args
  else DispatchResult.unknownTool ("Unknown tool: " ++ name)

/-- Outcome of `validateArgs` (`src/src/error-handler.ts:82`). -/
inductive ValidationOutcome where
  | ok
  | notObject
  | missing (fields : List String)
  deriving Repr, DecidableEq

/-- `validateArgs` (`src/src/error-handler.ts:82`): reject a non-object,
else collect the required fields that are absent, `undefined` or `null`.
This helper is exported by the source but never called by any handler. -/
def validateArgs (args : Option ArgMap) (requiredFields : List String) :
    ValidationOutcome :=
  match args with
  | none => ValidationOutcome.notObject
  | some l =>
    let missingFields := requiredFields.filter (fun field =>
      match argGet l field with
      | none => true
      | some ArgVal.nullv => true
      | some _ => false)
    if missingFields.isEmpty then ValidationOutcome.ok
    else ValidationOutcome.missing missingFields

/-- The `required` arrays of the tool input schemas
(`src/src/index.ts:206,220,251,316,334,355`). -/
def requiredFieldsFor (name : String) : List String :=
  if name == "get_project_tasks_by_name" then ["project_name"]
  else if name == "get_task_by_id" then ["task_id"]
  else if name == "submit_task_feedback" then
    ["task_id", "project_name", "feedback_content", "status"]
  else if name == "create_task" then ["project_id", "title"]
  else []

/-! ### Claim C8: pre-invocation validation of tool calls -/

/-- C8's argument half fails on this code: a `create_task` call with an
empty argument object is dispatched straight to the Tool Invoker
(`apiClient.createTask`) even though `validateArgs` — present in the
source but never called by any handler — would have reported
`project_id` and `title` missing; only the tool NAME is validated (an
unknown name throws without invoking any handler). -/
theorem tool_dispatch_no_validation_code_bug :
    callToolDispatch "create_task" (some []) =
      DispatchResult.invoke "create_task" (some []) ∧
    validateArgs (some []) (requiredFieldsFor "create_task") =
      ValidationOutcome.missing ["project_id", "title"] ∧
    callToolDispatch "not_a_tool" (some []) =
      DispatchResult.unknownTool "Unknown tool: not_a_tool" ∧
    validateArgs none ["project_id"] = ValidationOutcome.notObject := by
  refine ⟨rfl, by decide, rfl, rfl⟩

end TodoMcp
